import Mathlib

/-!
Verification of the `Batch` pipeline module of the seabird-processing
package (`src/seabird_processing/batch.py`).

The module is a thin orchestration shim: `get_batch_config_str` (render)
builds a newline-joined configuration text from an ordered sequence of
stage descriptors, threading the base name of each stage's declared
output path into the next stage's input; `__call__` (run) writes that
text to a scoped temporary file and invokes the external `sbebatch`
executable against it.

Stage descriptors are opaque collaborators exposing
`get_exec_str(input, batch_mode) -> str` and
`output_file_path(input) -> str`; we model them as records of Lean
functions.  Because Python methods may raise, we also embed a fallible
variant (`FSBEConfig`) whose operations return `Except`.  The `run`
operation's side effects (temporary-file lifecycle, subprocess spawn)
are embedded as an explicit event trace over a `World` that supplies
the nondeterministic outcomes (temp-file name, resource failures,
child-process exit code).
-/

namespace SeabirdBatch

/-- The fixed header comment, `Batch.config_header_comment` in the source,
rendered verbatim as the first line of every configuration. -/
def config_header_comment : String :=
  "@ Generated by the seabird-processing Python package"

/-- Model of Python `Path(s).name` as used at batch.py line 50: the final
path component, i.e. the text after the last `/` separator (directory
components stripped). -/
def pathName (s : String) : String :=
  String.mk ((s.data.reverse.takeWhile (fun c => c ≠ '/')).reverse)

/-- Model of Python `"\n".join(lines)` as used at batch.py line 52:
interpose a single newline between consecutive lines, adding no trailing
newline. -/
def joinNl : List String → String
  | [] => ""
  | [a] => a
  | a :: b :: rest => a ++ "\n" ++ joinNl (b :: rest)

/-- A stage descriptor (`_SBEConfig` collaborator): an opaque object
exposing an exec-string operation and an output-path operation. -/
structure SBEConfig where
  get_exec_str : String → Bool → String
  output_file_path : String → String

instance : Inhabited SBEConfig :=
  ⟨⟨fun _ _ => "", fun _ => ""⟩⟩

/-- The `Batch` pipeline object: holds the caller-supplied ordered
sequence of stage descriptors (batch.py `__init__`). -/
structure Batch where
  stages : List SBEConfig

/-- The loop body of `get_batch_config_str` (batch.py lines 44-51): for
each stage append `config.get_exec_str(next_input_file, batch_mode=True)`
and rebind `next_input_file` to
`Path(config.output_file_path(next_input_file)).name`.  Returns the list
of appended stage lines. -/
def renderLines : List SBEConfig → String → List String
  | [], _ => []
  | config :: rest, next_input_file =>
    config.get_exec_str next_input_file true ::
      renderLines rest (pathName (config.output_file_path next_input_file))

/-- `Batch.get_batch_config_str` (batch.py lines 36-52): header line
followed by the stage lines, joined with newlines. -/
def Batch.get_batch_config_str (b : Batch) (input_file_pattern : String) : String :=
  joinNl (config_header_comment :: renderLines b.stages input_file_pattern)

/-- The sequence of `next_input_file` values fed to the successive
stages during one render: the first stage receives the caller's raw
pattern, each later stage the directory-stripped output path of its
predecessor (batch.py lines 45 and 50). -/
def threadInputs : List SBEConfig → String → List String
  | [], _ => []
  | config :: rest, next_input_file =>
    next_input_file ::
      threadInputs rest (pathName (config.output_file_path next_input_file))

/-- State-passing reading of the `get_batch_config_str` method call: the
method body (batch.py lines 44-52) reads `self.stages` and assigns no
attribute, so the receiver object is returned unchanged. -/
def Batch.get_batch_config_strS (b : Batch) (input_file_pattern : String) :
    String × Batch :=
  (b.get_batch_config_str input_file_pattern, b)

/-- Errors raised by a stage descriptor's operations (the spec's
StageError class); the payload is the textual message carried by the
raised Python exception. -/
def StageErr : Type := String

instance : DecidableEq StageErr := fun a b => String.decEq a b

/-- A stage descriptor whose operations may raise: each method returns
either its text result or the raised error. -/
structure FSBEConfig where
  get_exec_str : String → Bool → Except StageErr String
  output_file_path : String → Except StageErr String

/-- The loop of `get_batch_config_str` (batch.py lines 44-51) over
fallible stage descriptors: a raise inside `get_exec_str` or
`output_file_path` aborts the loop and propagates (Python exception
semantics). -/
def renderLinesE : List FSBEConfig → String → Except StageErr (List String)
  | [], _ => Except.ok []
  | config :: rest, next_input_file =>
    match config.get_exec_str next_input_file true with
    | Except.error e => Except.error e
    | Except.ok line =>
      match config.output_file_path next_input_file with
      | Except.error e => Except.error e
      | Except.ok out =>
        match renderLinesE rest (pathName out) with
        | Except.error e => Except.error e
        | Except.ok lines => Except.ok (line :: lines)

/-- `get_batch_config_str` over fallible stages: the joined text, or the
first error raised by a stage operation, propagated verbatim. -/
def get_batch_config_strE (stages : List FSBEConfig) (input_file_pattern : String) :
    Except StageErr String :=
  (renderLinesE stages input_file_pattern).map
    (fun lines => joinNl (config_header_comment :: lines))

/-- The `next_input_file` value that would be fed to the stage following
the given ones, when every listed stage's operations succeed along the
thread (batch.py lines 45-50). -/
def threadE : List FSBEConfig → String → Except StageErr String
  | [], next_input_file => Except.ok next_input_file
  | config :: rest, next_input_file =>
    match config.get_exec_str next_input_file true with
    | Except.error e => Except.error e
    | Except.ok _ =>
      match config.output_file_path next_input_file with
      | Except.error e => Except.error e
      | Except.ok out => threadE rest (pathName out)

/-- Observable filesystem/process events of one `__call__` invocation
(batch.py lines 54-71), in the order they occur. -/
inductive Event where
  | createTemp (name : String)
  | writeTemp (name : String) (contents : String)
  | runProc (cmd : List String) (returncode : Int)
  | deleteTemp (name : String)
  deriving DecidableEq, Repr

/-- Failures of one `__call__` invocation: a stage raise during
rendering, a temporary-resource failure (create/write/flush), or
`subprocess.CalledProcessError` from `check=True` — the spec's
ProcessFailure — carrying the invoked command and the exit status. -/
inductive RunError where
  | stage (e : StageErr)
  | resource
  | processFailure (cmd : List String) (returncode : Int)
  deriving DecidableEq

/-- Environment outcomes one `__call__` invocation is exposed to: the
name `NamedTemporaryFile` picks, whether creating and writing/flushing
the temporary file succeed, and the exit status of the spawned
`sbebatch` process. -/
structure World where
  tmpName : String
  createOk : Bool
  writeOk : Bool
  exitCode : Int

/-- `Batch.__call__` (batch.py lines 54-71) as a trace semantics: a
`with NamedTemporaryFile(...)` block creates the file, the rendered
configuration is written and flushed, `subprocess.run(["sbebatch", name],
check=True)` spawns the child, and the context manager deletes the file
on every exit path — including a stage raise while rendering, a write
failure, and a non-zero child exit.  Returns the event trace and the
outcome. -/
def callBatch (stages : List FSBEConfig) (input_file_pattern : String)
    (w : World) : List Event × Except RunError Unit :=
  if w.createOk then
    match get_batch_config_strE stages input_file_pattern with
    | Except.error e =>
      ([Event.createTemp w.tmpName, Event.deleteTemp w.tmpName],
        Except.error (RunError.stage e))
    | Except.ok cfg =>
      if w.writeOk then
        let cmd := ["sbebatch", w.tmpName]
        if w.exitCode = 0 then
          ([Event.createTemp w.tmpName, Event.writeTemp w.tmpName cfg,
            Event.runProc cmd w.exitCode, Event.deleteTemp w.tmpName],
            Except.ok ())
        else
          ([Event.createTemp w.tmpName, Event.writeTemp w.tmpName cfg,
            Event.runProc cmd w.exitCode, Event.deleteTemp w.tmpName],
            Except.error (RunError.processFailure cmd w.exitCode))
      else
        ([Event.createTemp w.tmpName, Event.deleteTemp w.tmpName],
          Except.error RunError.resource)
  else
    ([], Except.error RunError.resource)

/-- State-passing reading of the `__call__` method: its body (batch.py
lines 62-71) reads `self.get_batch_config_str` and assigns no attribute,
so the receiver's stage sequence is returned unchanged. -/
def callBatchS (stages : List FSBEConfig) (input_file_pattern : String)
    (w : World) : (List Event × Except RunError Unit) × List FSBEConfig :=
  (callBatch stages input_file_pattern w, stages)

/-- Temporary files still on the filesystem after a trace of events:
creations push a name, deletions remove it. -/
def leakedTemps (events : List Event) : List String :=
  events.foldl
    (fun acc e =>
      match e with
      | Event.createTemp n => acc ++ [n]
      | Event.deleteTemp n => acc.erase n
      | _ => acc)
    []

/-- Whether an event is a child-process spawn. -/
def isRunProc : Event → Bool
  | Event.runProc _ _ => true
  | _ => false

/-- Splitting a character list at newline characters: the lines of a
text, in the `str.splitlines`/`splitOn`-on-newline sense.  `splitNl l`
always has one more element than the number of newlines in `l`. -/
def splitNl : List Char → List (List Char)
  | [] => [[]]
  | c :: rest =>
    if c = '\n' then [] :: splitNl rest
    else
      match splitNl rest with
      | [] => [[c]]
      | l :: ls => (c :: l) :: ls

theorem splitNl_ne_nil (l : List Char) : splitNl l ≠ [] := by
  induction l with
  | nil => simp [splitNl]
  | cons c rest ih =>
    simp only [splitNl]
    by_cases h : c = '\n'
    · simp [h]
    · simp only [h, if_false]
      cases hr : splitNl rest with
      | nil => simp
      | cons l ls => simp

theorem splitNl_of_no_nl (l : List Char) (h : ∀ c ∈ l, c ≠ '\n') :
    splitNl l = [l] := by
  induction l with
  | nil => rfl
  | cons c rest ih =>
    have hc : c ≠ '\n' := h c (List.mem_cons_self c rest)
    have hrest : ∀ x ∈ rest, x ≠ '\n' := fun x hx => h x (List.mem_cons_of_mem c hx)
    simp only [splitNl, hc, if_false]
    rw [ih hrest]

theorem splitNl_append (a rest : List Char) (h : ∀ c ∈ a, c ≠ '\n') :
    splitNl (a ++ '\n' :: rest) = a :: splitNl rest := by
  induction a with
  | nil => simp [splitNl]
  | cons c t ih =>
    have hc : c ≠ '\n' := h c (List.mem_cons_self c t)
    have ht : ∀ x ∈ t, x ≠ '\n' := fun x hx => h x (List.mem_cons_of_mem c hx)
    simp only [List.cons_append, splitNl, hc, if_false, List.append_eq]
    rw [ih ht]

theorem data_joinNl_cons (a b : String) (rest : List String) :
    (joinNl (a :: b :: rest)).data = a.data ++ '\n' :: (joinNl (b :: rest)).data := by
  show (a ++ "\n" ++ joinNl (b :: rest)).data = _
  rw [String.data_append, String.data_append, List.append_assoc]
  rfl

theorem splitNl_joinNl (lines : List String) (hne : lines ≠ [])
    (h : ∀ line ∈ lines, ∀ c ∈ line.data, c ≠ '\n') :
    splitNl (joinNl lines).data = lines.map String.data := by
  induction lines with
  | nil => exact absurd rfl hne
  | cons a rest ih =>
    cases rest with
    | nil =>
      show splitNl a.data = [a.data]
      exact splitNl_of_no_nl a.data (h a (List.mem_cons_self a []))
    | cons b t =>
      rw [data_joinNl_cons]
      rw [splitNl_append _ _ (h a (List.mem_cons_self a (b :: t)))]
      rw [ih (by simp) (fun line hl => h line (List.mem_cons_of_mem a hl))]
      rfl

theorem renderLines_length (stages : List SBEConfig) (p : String) :
    (renderLines stages p).length = stages.length := by
  induction stages generalizing p with
  | nil => rfl
  | cons c rest ih => simp [renderLines, ih]

theorem threadInputs_length (stages : List SBEConfig) (p : String) :
    (threadInputs stages p).length = stages.length := by
  induction stages generalizing p with
  | nil => rfl
  | cons c rest ih => simp [threadInputs, ih]

theorem renderLinesE_append_of_thread (pre : List FSBEConfig) (p t : String)
    (ht : threadE pre p = Except.ok t) (l : List FSBEConfig) :
    ∃ ls, renderLinesE pre p = Except.ok ls ∧
      renderLinesE (pre ++ l) p
        = (renderLinesE l t).map (fun ms => ls ++ ms) := by
  induction pre generalizing p with
  | nil =>
    have hp : t = p := by
      simpa [threadE] using ht.symm
    subst hp
    refine ⟨[], rfl, ?_⟩
    cases hr : renderLinesE l t <;> simp [hr, Except.map]
  | cons c rest ih =>
    cases he : c.get_exec_str p true with
    | error e => simp [threadE, he] at ht
    | ok s =>
      cases ho : c.output_file_path p with
      | error e => simp [threadE, he, ho] at ht
      | ok out =>
        have ht' : threadE rest (pathName out) = Except.ok t := by
          simpa [threadE, he, ho] using ht
        obtain ⟨ls, h1, h2⟩ := ih (pathName out) ht'
        refine ⟨s :: ls, ?_, ?_⟩
        · simp [renderLinesE, he, ho, h1]
        · simp only [List.cons_append, renderLinesE, he, ho, h2]
          cases hr : renderLinesE l t <;> simp [hr, Except.map] at h2 ⊢ <;> simp [h2]

/-- Claim C1: for every pipeline of `n` stages and every input file
pattern, `get_batch_config_str` returns the header line followed by one
line per stage, joined by a single newline with no trailing newline: the
result splits at newlines into exactly `n + 1` lines, the first of which
is the fixed header comment verbatim (provided each stage's exec string
is a single line, i.e. contains no newline itself). -/
theorem C1_render_line_structure (b : Batch) (p : String)
    (h : ∀ line ∈ renderLines b.stages p, ∀ c ∈ line.data, c ≠ '\n') :
    splitNl (b.get_batch_config_str p).data
        = (config_header_comment :: renderLines b.stages p).map String.data
      ∧ (splitNl (b.get_batch_config_str p).data).length = b.stages.length + 1
      ∧ (splitNl (b.get_batch_config_str p).data).head?
          = some config_header_comment.data := by
  have hh : ∀ c ∈ config_header_comment.data, c ≠ '\n' := by decide
  have hall : ∀ line ∈ config_header_comment :: renderLines b.stages p,
      ∀ c ∈ line.data, c ≠ '\n' := by
    intro line hl
    rcases List.mem_cons.mp hl with h1 | h2
    · subst h1; exact hh
    · exact h line h2
  have key : splitNl (b.get_batch_config_str p).data
      = (config_header_comment :: renderLines b.stages p).map String.data :=
    splitNl_joinNl _ (by simp) hall
  refine ⟨key, ?_, ?_⟩
  · rw [key]; simp [renderLines_length]
  · rw [key]; rfl

def c1Stage : SBEConfig :=
  ⟨fun p _ => "proc -i " ++ p, fun _ => "d/out.cnv"⟩

/-- Concrete instantiation of `C1_render_line_structure` on a one-stage
pipeline. -/
theorem C1_witness :
    (∀ line ∈ renderLines (Batch.mk [c1Stage]).stages "in.hex",
      ∀ c ∈ line.data, c ≠ '\n')
    ∧ (splitNl ((Batch.mk [c1Stage]).get_batch_config_str "in.hex").data
          = (config_header_comment
              :: renderLines (Batch.mk [c1Stage]).stages "in.hex").map String.data
        ∧ (splitNl ((Batch.mk [c1Stage]).get_batch_config_str "in.hex").data).length
            = (Batch.mk [c1Stage]).stages.length + 1
        ∧ (splitNl ((Batch.mk [c1Stage]).get_batch_config_str "in.hex").data).head?
            = some config_header_comment.data) :=
  ⟨by decide, C1_render_line_structure (Batch.mk [c1Stage]) "in.hex" (by decide)⟩

/-- Claim C5: `get_batch_config_str` is a pure, deterministic function
of the stage sequence and the input pattern: any two pipelines holding
equal stage sequences render equal text for equal patterns, and the
state-passing reading of the call returns only the text and the
untouched receiver (no events, no mutation). -/
theorem C5_render_deterministic (b1 b2 : Batch) (p1 p2 : String)
    (hs : b1.stages = b2.stages) (hp : p1 = p2) :
    b1.get_batch_config_str p1 = b2.get_batch_config_str p2
      ∧ b1.get_batch_config_strS p1 = (b1.get_batch_config_str p1, b1) := by
  subst hp
  cases b1; cases b2
  cases hs
  exact ⟨rfl, rfl⟩

def c5Stage : SBEConfig :=
  ⟨fun p _ => "cmd " ++ p, fun p => p⟩

/-- Concrete instantiation of `C5_render_deterministic`: two structurally
equal one-stage pipelines render identically. -/
theorem C5_witness :
    (Batch.mk [c5Stage]).stages = (Batch.mk [c5Stage]).stages
    ∧ ("a" : String) = "a"
    ∧ ((Batch.mk [c5Stage]).get_batch_config_str "a"
          = (Batch.mk [c5Stage]).get_batch_config_str "a"
        ∧ (Batch.mk [c5Stage]).get_batch_config_strS "a"
          = ((Batch.mk [c5Stage]).get_batch_config_str "a", Batch.mk [c5Stage])) :=
  ⟨rfl, rfl, C5_render_deterministic (Batch.mk [c5Stage]) (Batch.mk [c5Stage]) "a" "a" rfl rfl⟩

def stageA : SBEConfig :=
  ⟨fun p _ => "stageA -i " ++ p, fun _ => "dir/out_a.cnv"⟩

def stageB : SBEConfig :=
  ⟨fun p _ => "stageB -i " ++ p, fun _ => "out_b.cnv"⟩

/-- Claim C7: on the concrete two-stage pipeline of the spec's worked
example, rendering the pattern `raw*.hex` yields exactly the header
line, then `stageA -i raw*.hex`, then `stageB -i out_a.cnv` (stage B
sees the directory-stripped output of stage A). -/
theorem C7_concrete_two_stage :
    (Batch.mk [stageA, stageB]).get_batch_config_str "raw*.hex"
      = "@ Generated by the seabird-processing Python package\nstageA -i raw*.hex\nstageB -i out_a.cnv" := by
  rfl

/-- Claim C9: one render/run call leaves the pipeline's stage sequence
untouched: the state-passing call returns the receiver unchanged, with
the same stage list, and a repeated render on the returned receiver
yields the same text; likewise `__call__` returns its stage sequence
unchanged. -/
theorem C9_stage_sequence_frame (b : Batch) (p : String)
    (stages : List FSBEConfig) (q : String) (w : World) :
    (b.get_batch_config_strS p).2 = b
      ∧ (b.get_batch_config_strS p).2.stages = b.stages
      ∧ ((b.get_batch_config_strS p).2).get_batch_config_str p
          = b.get_batch_config_str p
      ∧ (callBatchS stages q w).2 = stages :=
  ⟨rfl, rfl, rfl, rfl⟩

/-- Claim C2: during one render, stage `i`'s exec line is obtained by
invoking its exec-string function with batch mode `true` on the threaded
input `threadInputs[i]`; the first threaded input is the caller's raw
pattern, and each later one is the directory-stripped base name of the
output path the previous stage declared for its own threaded input. -/
theorem C2_input_threading (stages : List SBEConfig) (p : String) :
    (threadInputs stages p).length = stages.length
      ∧ (0 < stages.length → (threadInputs stages p).getD 0 "" = p)
      ∧ (∀ i, i < stages.length →
          (renderLines stages p).getD i ""
            = (stages.getD i default).get_exec_str
                ((threadInputs stages p).getD i "") true)
      ∧ (∀ i, i + 1 < stages.length →
          (threadInputs stages p).getD (i + 1) ""
            = pathName ((stages.getD i default).output_file_path
                ((threadInputs stages p).getD i ""))) := by
  refine ⟨threadInputs_length stages p, ?_⟩
  induction stages generalizing p with
  | nil => exact ⟨by simp, by simp, by simp⟩
  | cons c rest ih =>
    obtain ⟨ihHead, ihLine, ihThread⟩ := ih (pathName (c.output_file_path p))
    refine ⟨fun _ => rfl, ?_, ?_⟩
    · intro i hi
      cases i with
      | zero => rfl
      | succ j =>
        have hj : j < rest.length := by simpa using hi
        simpa [renderLines, threadInputs] using ihLine j hj
    · intro i hi
      cases i with
      | zero =>
        have hr : 0 < rest.length := by simpa using hi
        simpa [threadInputs] using ihHead hr
      | succ j =>
        have hj : j + 1 < rest.length := by simpa using hi
        simpa [threadInputs] using ihThread j hj

def c2StageA : SBEConfig :=
  ⟨fun p _ => "fstA " ++ p, fun _ => "sub/mid.cnv"⟩

def c2StageB : SBEConfig :=
  ⟨fun p _ => "fstB " ++ p, fun _ => "fin.cnv"⟩

/-- Concrete instantiation of `C2_input_threading` on a two-stage
pipeline: stage 1's exec line uses the base name of stage 0's declared
output path. -/
theorem C2_witness :
    (1 < ([c2StageA, c2StageB] : List SBEConfig).length
        ∧ 0 + 1 < ([c2StageA, c2StageB] : List SBEConfig).length)
    ∧ (renderLines [c2StageA, c2StageB] "raw.hex").getD 1 ""
        = (([c2StageA, c2StageB] : List SBEConfig).getD 1 default).get_exec_str
            ((threadInputs [c2StageA, c2StageB] "raw.hex").getD 1 "") true
    ∧ (threadInputs [c2StageA, c2StageB] "raw.hex").getD (0 + 1) ""
        = pathName ((([c2StageA, c2StageB] : List SBEConfig).getD 0 default).output_file_path
            ((threadInputs [c2StageA, c2StageB] "raw.hex").getD 0 "")) :=
  ⟨⟨by decide, by decide⟩,
    (C2_input_threading [c2StageA, c2StageB] "raw.hex").2.2.1 1 (by decide),
    (C2_input_threading [c2StageA, c2StageB] "raw.hex").2.2.2 0 (by decide)⟩

/-- Claim C3: on every outcome of a `__call__` invocation — success,
child-process failure, stage raise during rendering, or a failure
creating or writing the temporary resource — no temporary file created
by that invocation remains afterwards: every `createTemp` in the trace
has a matching `deleteTemp`, and the set of leaked temporaries is empty. -/
theorem C3_no_temp_leak (stages : List FSBEConfig) (p : String) (w : World) :
    leakedTemps (callBatch stages p w).1 = []
      ∧ ∀ n, Event.createTemp n ∈ (callBatch stages p w).1 →
          Event.deleteTemp n ∈ (callBatch stages p w).1 := by
  unfold callBatch
  by_cases hc : w.createOk <;>
    cases hr : get_batch_config_strE stages p <;>
      by_cases hw : w.writeOk <;>
        by_cases hx : w.exitCode = 0 <;>
          refine ⟨by simp [hc, hw, hx, leakedTemps], fun n hn => ?_⟩ <;>
            simp_all

/-- Claim C4: when the spawned `sbebatch` process exits nonzero (and the
configuration rendered and was written), `__call__` fails with the
ProcessFailure error (`subprocess.CalledProcessError`) carrying the
invoked command and the exit status; exactly one process spawn occurs
(no retry), the failure is the invocation's outcome (not suppressed),
and by then the temporary file has been deleted. -/
theorem C4_process_failure (stages : List FSBEConfig) (p : String) (w : World)
    (cfg : String) (hc : w.createOk = true) (hw : w.writeOk = true)
    (hr : get_batch_config_strE stages p = Except.ok cfg)
    (hx : w.exitCode ≠ 0) :
    (callBatch stages p w).2
        = Except.error (RunError.processFailure ["sbebatch", w.tmpName] w.exitCode)
      ∧ (callBatch stages p w).1.filter isRunProc
          = [Event.runProc ["sbebatch", w.tmpName] w.exitCode]
      ∧ Event.deleteTemp w.tmpName ∈ (callBatch stages p w).1
      ∧ leakedTemps (callBatch stages p w).1 = [] := by
  unfold callBatch
  simp [hc, hw, hr, hx, isRunProc, leakedTemps]

/-- Concrete instantiation of `C4_process_failure`: an empty pipeline
run in a world whose `sbebatch` exits with status 1. -/
theorem C4_witness :
    ((World.mk "tmp.txt" true true 1).createOk = true
        ∧ (World.mk "tmp.txt" true true 1).writeOk = true
        ∧ get_batch_config_strE [] "in.hex" = Except.ok config_header_comment
        ∧ (World.mk "tmp.txt" true true 1).exitCode ≠ 0)
    ∧ ((callBatch [] "in.hex" (World.mk "tmp.txt" true true 1)).2
          = Except.error (RunError.processFailure
              ["sbebatch", (World.mk "tmp.txt" true true 1).tmpName]
              (World.mk "tmp.txt" true true 1).exitCode)
        ∧ (callBatch [] "in.hex" (World.mk "tmp.txt" true true 1)).1.filter isRunProc
            = [Event.runProc ["sbebatch", (World.mk "tmp.txt" true true 1).tmpName]
                (World.mk "tmp.txt" true true 1).exitCode]
        ∧ Event.deleteTemp (World.mk "tmp.txt" true true 1).tmpName
            ∈ (callBatch [] "in.hex" (World.mk "tmp.txt" true true 1)).1
        ∧ leakedTemps (callBatch [] "in.hex" (World.mk "tmp.txt" true true 1)).1 = []) :=
  ⟨⟨rfl, rfl, rfl, by decide⟩,
    C4_process_failure [] "in.hex" (World.mk "tmp.txt" true true 1)
      config_header_comment rfl rfl rfl (by decide)⟩

/-- Claim C8: an empty pipeline renders to exactly the header line alone
(no newline, in both the total and the fallible model), and `__call__`
still writes a header-only temporary file and spawns the external
executable exactly once against it. -/
theorem C8_empty_pipeline (p : String) (w : World)
    (hc : w.createOk = true) (hw : w.writeOk = true) :
    (Batch.mk []).get_batch_config_str p = config_header_comment
      ∧ get_batch_config_strE [] p = Except.ok config_header_comment
      ∧ Event.writeTemp w.tmpName config_header_comment ∈ (callBatch [] p w).1
      ∧ (callBatch [] p w).1.filter isRunProc
          = [Event.runProc ["sbebatch", w.tmpName] w.exitCode] := by
  refine ⟨rfl, rfl, ?_, ?_⟩ <;>
    · unfold callBatch
      by_cases hx : w.exitCode = 0 <;>
        simp [hc, hw, hx, get_batch_config_strE, renderLinesE, Except.map,
          joinNl, isRunProc]

/-- Concrete instantiation of `C8_empty_pipeline`. -/
theorem C8_witness :
    ((World.mk "cfg.txt" true true 0).createOk = true
        ∧ (World.mk "cfg.txt" true true 0).writeOk = true)
    ∧ ((Batch.mk []).get_batch_config_str "any*.hex" = config_header_comment
        ∧ get_batch_config_strE [] "any*.hex" = Except.ok config_header_comment
        ∧ Event.writeTemp (World.mk "cfg.txt" true true 0).tmpName config_header_comment
            ∈ (callBatch [] "any*.hex" (World.mk "cfg.txt" true true 0)).1
        ∧ (callBatch [] "any*.hex" (World.mk "cfg.txt" true true 0)).1.filter isRunProc
            = [Event.runProc ["sbebatch", (World.mk "cfg.txt" true true 0).tmpName]
                (World.mk "cfg.txt" true true 0).exitCode]) :=
  ⟨⟨rfl, rfl⟩, C8_empty_pipeline "any*.hex" (World.mk "cfg.txt" true true 0) rfl rfl⟩

/-- Claim C6: if a stage's exec-string or output-path function raises on
its threaded input, `get_batch_config_str` propagates that very error
(in both render and run), and the result is independent of every stage
later in the sequence — no later stage is processed. -/
theorem C6_stage_error_propagation (pre : List FSBEConfig) (c : FSBEConfig)
    (post : List FSBEConfig) (p t : String) (e : StageErr)
    (ht : threadE pre p = Except.ok t)
    (hfail : c.get_exec_str t true = Except.error e
      ∨ ∃ s, c.get_exec_str t true = Except.ok s
          ∧ c.output_file_path t = Except.error e) :
    get_batch_config_strE (pre ++ c :: post) p = Except.error e
      ∧ get_batch_config_strE (pre ++ [c]) p = Except.error e
      ∧ ∀ w : World, w.createOk = true →
          (callBatch (pre ++ c :: post) p w).2
            = Except.error (RunError.stage e) := by
  have hfailE : ∀ l : List FSBEConfig, renderLinesE (c :: l) t = Except.error e := by
    intro l
    rcases hfail with h1 | ⟨s, h1, h2⟩
    · simp [renderLinesE, h1]
    · simp [renderLinesE, h1, h2]
  have h1 : get_batch_config_strE (pre ++ c :: post) p = Except.error e := by
    obtain ⟨ls, _, h2⟩ := renderLinesE_append_of_thread pre p t ht (c :: post)
    simp [get_batch_config_strE, h2, hfailE post, Except.map]
  have h2 : get_batch_config_strE (pre ++ [c]) p = Except.error e := by
    obtain ⟨ls, _, h2⟩ := renderLinesE_append_of_thread pre p t ht [c]
    simp [get_batch_config_strE, h2, hfailE [], Except.map]
  refine ⟨h1, h2, fun w hc => ?_⟩
  unfold callBatch
  simp [hc, h1]

def c6BadStage : FSBEConfig :=
  ⟨fun _ _ => Except.error "exec failed", fun p => Except.ok p⟩

def c6LateStage : FSBEConfig :=
  ⟨fun p _ => Except.ok ("late " ++ p), fun p => Except.ok p⟩

/-- Concrete instantiation of `C6_stage_error_propagation`: a first
stage whose exec-string function raises makes render fail with that
error, regardless of the stage after it. -/
theorem C6_witness :
    (threadE [] "in.hex" = Except.ok "in.hex"
        ∧ c6BadStage.get_exec_str "in.hex" true = Except.error "exec failed")
    ∧ (get_batch_config_strE ([] ++ c6BadStage :: [c6LateStage]) "in.hex"
          = Except.error "exec failed"
        ∧ get_batch_config_strE ([] ++ [c6BadStage]) "in.hex"
            = Except.error "exec failed"
        ∧ ∀ w : World, w.createOk = true →
            (callBatch ([] ++ c6BadStage :: [c6LateStage]) "in.hex" w).2
              = Except.error (RunError.stage "exec failed")) :=
  ⟨⟨rfl, rfl⟩,
    C6_stage_error_propagation [] c6BadStage [c6LateStage] "in.hex" "in.hex"
      "exec failed" rfl (Or.inl rfl)⟩

/-- Claim C10: render invokes the final stage's output-path function
even though its value is never used in the returned text: when the last
stage's exec-string succeeds but its output-path raises, render fails
with that error; had the output-path call returned any value instead,
render would have returned the fully rendered text. -/
theorem C10_last_output_path_invoked (pre : List FSBEConfig) (c : FSBEConfig)
    (p t s : String) (e : StageErr)
    (ht : threadE pre p = Except.ok t)
    (hexec : c.get_exec_str t true = Except.ok s)
    (hout : c.output_file_path t = Except.error e) :
    get_batch_config_strE (pre ++ [c]) p = Except.error e
      ∧ ∀ c2 : FSBEConfig, c2.get_exec_str = c.get_exec_str →
          (∃ o, c2.output_file_path t = Except.ok o) →
          ∃ txt, get_batch_config_strE (pre ++ [c2]) p = Except.ok txt := by
  constructor
  · obtain ⟨ls, _, h2⟩ := renderLinesE_append_of_thread pre p t ht [c]
    simp [get_batch_config_strE, h2, renderLinesE, hexec, hout, Except.map]
  · rintro c2 hsame ⟨o, ho⟩
    obtain ⟨ls, _, h2⟩ := renderLinesE_append_of_thread pre p t ht [c2]
    refine ⟨joinNl (config_header_comment :: (ls ++ [s])), ?_⟩
    simp [get_batch_config_strE, h2, renderLinesE, hsame, hexec, ho, Except.map]

def c10ExecOkStage : FSBEConfig :=
  ⟨fun p _ => Except.ok ("final " ++ p), fun _ => Except.error "no output path"⟩

/-- Concrete instantiation of `C10_last_output_path_invoked`: a
single-stage pipeline whose only (hence last) stage renders its exec
line fine but raises in `output_file_path`, so render fails. -/
theorem C10_witness :
    (threadE [] "raw.hex" = Except.ok "raw.hex"
        ∧ c10ExecOkStage.get_exec_str "raw.hex" true = Except.ok "final raw.hex"
        ∧ c10ExecOkStage.output_file_path "raw.hex" = Except.error "no output path")
    ∧ get_batch_config_strE ([] ++ [c10ExecOkStage]) "raw.hex"
        = Except.error "no output path" :=
  ⟨⟨rfl, rfl, rfl⟩,
    (C10_last_output_path_invoked [] c10ExecOkStage "raw.hex" "raw.hex"
      "final raw.hex" "no output path" rfl rfl rfl).1⟩

end SeabirdBatch
